import Mathlib

/-!
Verification of the ezo-common command/response protocol engine.

The development shallowly embeds the Rust sources (`src/lib.rs`,
`src/command.rs`, `src/response.rs`, `src/macros.rs`, `src/errors.rs`):
strings are lists of characters, bytes are natural numbers below 256,
fallible functions return `Except ErrorKind`, and the stateful I2C
execution engine is modelled by explicit state passing over a device
state recording write/read outcomes, attempt counters and sleeps.

Protocol strings are ASCII: character-level uppercasing and
lowercasing model Rust's `str::to_uppercase` and ASCII-case-insensitive
comparisons, which agree on the ASCII alphabet the protocol uses.
-/

set_option maxRecDepth 20000

deriving instance DecidableEq for Except

namespace Ezo

/-- Wire strings and decoded payloads, modelled as lists of characters. -/
abbrev Str := List Char

/-- Coerces a Lean string literal into the `Str` model. -/
def str (s : String) : Str := s.data

/-- Rust `str::len`: the length in UTF-8 bytes. -/
def utf8Len (s : Str) : Nat := (s.map Char.utf8Size).sum

/-- Error kinds, from `src/errors.rs` (enum `ErrorKind`). -/
inductive ErrorKind where
  | BaudParse
  | BpsRateParse
  | CommandParse
  | DeviceErrorResponse
  | I2CRead
  | MalformedResponse
  | NoDataExpectedResponse
  | PendingResponse
  | ResponseParse
  | UnreadableCommand
  | UnwritableCommand
deriving DecidableEq

/-- Response codes from `src/lib.rs` (enum `ResponseCode`). -/
inductive ResponseCode where
  | NoDataExpected
  | Pending
  | DeviceError
  | Success
  | UnknownError
deriving DecidableEq

/-- Discriminant values of `ResponseCode` (`NoDataExpected = 0xFF`, ...). -/
def ResponseCode.toByte : ResponseCode → Nat
  | .NoDataExpected => 0xFF
  | .Pending => 0xFE
  | .DeviceError => 0x02
  | .Success => 0x01
  | .UnknownError => 0x00

/-- Embeds `response_code` from `src/lib.rs`: matches the code byte against
the discriminants, in source order, defaulting to `UnknownError`. -/
def response_code (code_byte : Nat) : ResponseCode :=
  if code_byte = ResponseCode.NoDataExpected.toByte then .NoDataExpected
  else if code_byte = ResponseCode.Pending.toByte then .Pending
  else if code_byte = ResponseCode.DeviceError.toByte then .DeviceError
  else if code_byte = ResponseCode.Success.toByte then .Success
  else .UnknownError

/-- Rust `str::to_uppercase`, modelled character by character. The wire
protocol alphabet is ASCII, where Unicode uppercasing agrees with
`Char.toUpper`. -/
def rust_to_uppercase (s : Str) : Str := s.map Char.toUpper

/-- ASCII lowercasing of a string, used to model Rust's
ASCII-case-insensitive comparisons inside `f64::from_str`. -/
def asciiLower (s : Str) : Str := s.map Char.toLower

/-- Rust `str::split(sep)` collected into a list of fields. Splitting the
empty string yields one empty field, as Rust's iterator does. -/
def splitChar (sep : Char) : Str → List Str
  | [] => [[]]
  | c :: cs =>
    if c = sep then [] :: splitChar sep cs
    else
      match splitChar sep cs with
      | f :: rest => (c :: f) :: rest
      | [] => [[c]]

/-- Joins fields back with the separator; inverse of `splitChar`. -/
def joinChar (sep : Char) : List Str → Str
  | [] => []
  | [f] => f
  | f :: g :: rest => f ++ sep :: joinChar sep (g :: rest)

/-- Tests for an ASCII decimal digit. -/
def isAsciiDigit (c : Char) : Bool := 48 ≤ c.toNat ∧ c.toNat ≤ 57

/-- Numeric value of a string of ASCII digits, most significant first. -/
def digitsVal (s : Str) : Nat := s.foldl (fun a c => 10 * a + (c.toNat - 48)) 0

/-- Single decimal digit character. -/
def digitChar (d : Nat) : Char := Char.ofNat (48 + d)

/-- Fuel-driven digit emission; the fuel only forces structural
termination and never runs out when it exceeds the number. -/
def natToDecAux : Nat → Nat → Str
  | 0, _ => []
  | fuel + 1, n =>
    if n < 10 then [digitChar n]
    else natToDecAux fuel (n / 10) ++ [digitChar (n % 10)]

/-- Rust `format!("{}", n)` for an unsigned integer: decimal digits, no
sign, no padding. -/
def natToDec (n : Nat) : Str := natToDecAux (n + 1) n

/-- Strips the optional leading plus sign accepted by Rust's unsigned
integer parsers. -/
def stripLeadingPlus : Str → Str
  | '+' :: u => u
  | u => u

/-- Rust `u16::from_str`: an optional leading plus sign followed by one or
more ASCII digits, rejecting values above `u16::MAX`. -/
def rustParseU16 (s : Str) : Option Nat :=
  let t := stripLeadingPlus s
  if t ≠ [] ∧ t.all isAsciiDigit then
    if digitsVal t ≤ 65535 then some (digitsVal t) else none
  else none

/-- Tests whether a wire string contains a nul character; `CString::new`
rejects exactly such strings. -/
def hasNulChar (s : Str) : Bool := s.any (fun c => c.toNat = 0)

/-- The mapping the specification ascribes to `response_code`, written from
the spec's words for comparison with the source embedding. -/
def responseCodeSpecMap (b : Nat) : ResponseCode :=
  if b = 0x01 then .Success
  else if b = 0x02 then .DeviceError
  else if b = 0xFE then .Pending
  else if b = 0xFF then .NoDataExpected
  else .UnknownError

/-- Allowable baud rates, from `src/lib.rs` (enum `BpsRate`). -/
inductive BpsRate where
  | Bps300
  | Bps1200
  | Bps2400
  | Bps9600
  | Bps19200
  | Bps38400
  | Bps57600
  | Bps115200
deriving DecidableEq

/-- Embeds `BpsRate::parse`, which returns the rate's numeric (`u32`)
discriminant value. -/
def BpsRate.parse : BpsRate → Nat
  | .Bps300 => 300
  | .Bps1200 => 1200
  | .Bps2400 => 2400
  | .Bps9600 => 9600
  | .Bps19200 => 19200
  | .Bps38400 => 38400
  | .Bps57600 => 57600
  | .Bps115200 => 115200

/-- Embeds `BpsRate::from_num` from `src/lib.rs`: compares the input with
each rate's numeric value in source order, failing with `BpsRateParse`. -/
def BpsRate.from_num (bps_rate : Nat) : Except ErrorKind BpsRate :=
  if bps_rate = BpsRate.Bps300.parse then .ok .Bps300
  else if bps_rate = BpsRate.Bps1200.parse then .ok .Bps1200
  else if bps_rate = BpsRate.Bps2400.parse then .ok .Bps2400
  else if bps_rate = BpsRate.Bps9600.parse then .ok .Bps9600
  else if bps_rate = BpsRate.Bps19200.parse then .ok .Bps19200
  else if bps_rate = BpsRate.Bps38400.parse then .ok .Bps38400
  else if bps_rate = BpsRate.Bps57600.parse then .ok .Bps57600
  else if bps_rate = BpsRate.Bps115200.parse then .ok .Bps115200
  else .error .BpsRateParse

/-- Embeds `turn_off_high_bits` from `src/lib.rs`: clears bit 7 of every
byte (`b & 0x7f`). -/
def turn_off_high_bits (v : List Nat) : List Nat := v.map (fun b => b &&& 0x7f)

/-- UTF-8 validation and decoding, modelling `str::from_utf8` (reached in
the source through `CStr::to_str`): rejects invalid lead bytes, overlong
encodings, surrogates and out-of-range code points. -/
def utf8Decode : List Nat → Option (List Char)
  | [] => some []
  | b :: rest =>
    if b < 0x80 then
      match utf8Decode rest with
      | some cs => some (Char.ofNat b :: cs)
      | none => none
    else if b < 0xC2 then none
    else if b < 0xE0 then
      match rest with
      | b1 :: rest1 =>
        if 0x80 ≤ b1 ∧ b1 < 0xC0 then
          match utf8Decode rest1 with
          | some cs => some (Char.ofNat ((b - 0xC0) * 64 + (b1 - 0x80)) :: cs)
          | none => none
        else none
      | [] => none
    else if b < 0xF0 then
      match rest with
      | b1 :: b2 :: rest2 =>
        if (if b = 0xE0 then 0xA0 ≤ b1 ∧ b1 < 0xC0
            else if b = 0xED then 0x80 ≤ b1 ∧ b1 < 0xA0
            else 0x80 ≤ b1 ∧ b1 < 0xC0) ∧ 0x80 ≤ b2 ∧ b2 < 0xC0 then
          match utf8Decode rest2 with
          | some cs =>
            some (Char.ofNat ((b - 0xE0) * 4096 + (b1 - 0x80) * 64 + (b2 - 0x80)) :: cs)
          | none => none
        else none
      | _ => none
    else if b < 0xF5 then
      match rest with
      | b1 :: b2 :: b3 :: rest3 =>
        if (if b = 0xF0 then 0x90 ≤ b1 ∧ b1 < 0xC0
            else if b = 0xF4 then 0x80 ≤ b1 ∧ b1 < 0x90
            else 0x80 ≤ b1 ∧ b1 < 0xC0) ∧ 0x80 ≤ b2 ∧ b2 < 0xC0 ∧ 0x80 ≤ b3 ∧ b3 < 0xC0 then
          match utf8Decode rest3 with
          | some cs =>
            some (Char.ofNat
              ((b - 0xF0) * 262144 + (b1 - 0x80) * 4096 + (b2 - 0x80) * 64 + (b3 - 0x80)) :: cs)
          | none => none
        else none
      | _ => none
    else none

/-- Embeds `CStr::from_bytes_with_nul` followed by dropping the terminator:
the buffer must end with a nul byte and contain no interior nul; the bytes
before the terminator are returned. -/
def cstrBytesWithoutNul (buf : List Nat) : Option (List Nat) :=
  if buf.getLast? = some 0 ∧ ¬ 0 ∈ buf.dropLast then some buf.dropLast else none

/-- Embeds `string_from_response_data` from `src/lib.rs`: sanitizes the
high bits, requires a trailing nul terminator via `CStr::from_bytes_with_nul`,
and validates UTF-8 via `CStr::to_str`; both failure modes become
`MalformedResponse`. -/
def string_from_response_data (response : List Nat) : Except ErrorKind Str :=
  match cstrBytesWithoutNul (turn_off_high_bits response) with
  | none => .error .MalformedResponse
  | some bytes =>
    match utf8Decode bytes with
    | some s => .ok s
    | none => .error .MalformedResponse

/-- Values of Rust `f64` literals relevant to this protocol, with finite
values carried exactly as rationals. Rust rounds the decimal literal to the
nearest `f64`; the rounding does not affect acceptance, which is all the
claims rely on, and the concrete values used are exactly representable. -/
inductive F64 where
  | finite (q : ℚ)
  | inf
  | negInf
  | nan
deriving DecidableEq

/-- Mantissa part of Rust's `f64::from_str` grammar:
`Digit+ | Digit+ '.' Digit* | Digit* '.' Digit+`; returns the value and the
unconsumed remainder (a possible exponent part). -/
def parseDecMantissa (s : Str) : Option (ℚ × Str) :=
  let ip := s.takeWhile isAsciiDigit
  let r1 := s.dropWhile isAsciiDigit
  match r1 with
  | c :: t =>
    if c = '.' then
      let fp := t.takeWhile isAsciiDigit
      let r2 := t.dropWhile isAsciiDigit
      if ip.isEmpty ∧ fp.isEmpty then none
      else some ((digitsVal ip : ℚ) + (digitsVal fp : ℚ) / (10 : ℚ) ^ fp.length, r2)
    else if ip.isEmpty then none else some ((digitsVal ip : ℚ), r1)
  | [] => if ip.isEmpty then none else some ((digitsVal ip : ℚ), [])

/-- Exponent part of Rust's `f64::from_str` grammar:
empty, or `e|E` followed by an optional sign and one or more digits. -/
def parseExpPart (q : ℚ) (s : Str) : Option ℚ :=
  match s with
  | [] => some q
  | c :: t =>
    if c = 'e' ∨ c = 'E' then
      let signedDigits := match t with
        | '+' :: u => (false, u)
        | '-' :: u => (true, u)
        | u => (false, u)
      if signedDigits.2 ≠ [] ∧ signedDigits.2.all isAsciiDigit then
        some (if signedDigits.1 then q / (10 : ℚ) ^ digitsVal signedDigits.2
              else q * (10 : ℚ) ^ digitsVal signedDigits.2)
      else none
    else none

/-- Rust `f64::from_str`: an optional sign, then a case-insensitive
`inf`/`infinity`/`nan`, or a decimal mantissa with an optional exponent. -/
def rustParseF64 (s : Str) : Option F64 :=
  let signed := match s with
    | '+' :: t => (false, t)
    | '-' :: t => (true, t)
    | t => (false, t)
  if asciiLower signed.2 = str "inf" ∨ asciiLower signed.2 = str "infinity" then
    some (if signed.1 then .negInf else .inf)
  else if asciiLower signed.2 = str "nan" then some .nan
  else
    match parseDecMantissa signed.2 with
    | some (q, rest) =>
      match parseExpPart q rest with
      | some v => some (.finite (if signed.1 then -v else v))
      | none => none
    | none => none

/-- Response shape for commands that may or may not expect an ACK, from
`src/response.rs` (enum `ResponseStatus`). -/
inductive ResponseStatus where
  | Ack
  | None
deriving DecidableEq

/-- Reason for a device restart, from `src/response.rs`
(enum `RestartReason`). -/
inductive RestartReason where
  | PoweredOff
  | SoftwareReset
  | BrownOut
  | Watchdog
  | Unknown
deriving DecidableEq

/-- One-letter wire encoding of each restart reason. -/
def RestartReason.letter : RestartReason → Char
  | .PoweredOff => 'P'
  | .SoftwareReset => 'S'
  | .BrownOut => 'B'
  | .Watchdog => 'W'
  | .Unknown => 'U'

/-- Decodes the first `?STATUS` field, mirroring the source's match of
`split.next()` against the five one-letter literals. -/
def reasonOfField (f : Str) : Option RestartReason :=
  if f = str "P" then some .PoweredOff
  else if f = str "S" then some .SoftwareReset
  else if f = str "B" then some .BrownOut
  else if f = str "W" then some .Watchdog
  else if f = str "U" then some .Unknown
  else none

/-- Device status response, from `src/response.rs` (struct `DeviceStatus`). -/
structure DeviceStatus where
  restart_reason : RestartReason
  vcc_voltage : F64
deriving DecidableEq

/-- Field-by-field decoding of a `?STATUS` response, mirroring the
source's successive `split.next()` calls: a one-letter reason, then a
voltage accepted by `f64::from_str`, then no further field. -/
def DeviceStatus.parseFields : List Str → Except ErrorKind DeviceStatus
  | field1 :: restFields =>
    match reasonOfField field1 with
    | some reason =>
      match restFields with
      | voltage_str :: rest2 =>
        match rustParseF64 voltage_str with
        | some voltage =>
          match rest2 with
          | [] => .ok ⟨reason, voltage⟩
          | _ => .error .ResponseParse
        | none => .error .ResponseParse
      | [] => .error .ResponseParse
    | none => .error .ResponseParse
  | [] => .error .ResponseParse

/-- Embeds `DeviceStatus::parse`: expects `?STATUS,<reason>,<voltage>` with
a case-sensitive tag, a one-letter reason, a voltage accepted by
`f64::from_str`, and no third field. -/
def DeviceStatus.parse (response : Str) : Except ErrorKind DeviceStatus :=
  if (str "?STATUS,").isPrefixOf response then
    DeviceStatus.parseFields (splitChar ',' (response.drop 8))
  else .error .ResponseParse

/-- Exported calibration response, from `src/response.rs` (enum `Exported`). -/
inductive Exported where
  | ExportString (s : Str)
  | Done
deriving DecidableEq

/-- Embeds `Exported::parse`: a string starting with `*` must be exactly
`*DONE`; any other string must be 1 to 12 bytes long (the source matches
`response.len()` against the exclusive range pattern `1..13`). -/
def Exported.parse (response : Str) : Except ErrorKind Exported :=
  if (str "*").isPrefixOf response then
    if response = str "*DONE" then .ok .Done else .error .ResponseParse
  else
    if 1 ≤ utf8Len response ∧ utf8Len response < 13 then .ok (.ExportString response)
    else .error .ResponseParse

/-- Wire string of the `Baud,n` command, from `src/command.rs`:
`format!("BAUD,{}", cmd.parse())`. -/
def Baud.get_command_string (cmd : BpsRate) : Str :=
  str "BAUD," ++ natToDec cmd.parse

/-- Decodes the first `BAUD` sub-token, mirroring the source's match of
`split.next()` against the eight decimal literals. -/
def Baud.rateOfToken (tok : Str) : Option BpsRate :=
  if tok = str "300" then some .Bps300
  else if tok = str "1200" then some .Bps1200
  else if tok = str "2400" then some .Bps2400
  else if tok = str "9600" then some .Bps9600
  else if tok = str "19200" then some .Bps19200
  else if tok = str "38400" then some .Bps38400
  else if tok = str "57600" then some .Bps57600
  else if tok = str "115200" then some .Bps115200
  else none

/-- Body of `Baud::from_str` after uppercasing, from `src/command.rs`:
requires the `BAUD,` prefix, one of the eight rate tokens (else
`BpsRateParse`), and no further comma-separated field (else `BaudParse`). -/
def Baud.from_upper (supper : Str) : Except ErrorKind BpsRate :=
  if (str "BAUD,").isPrefixOf supper then
    match splitChar ',' (supper.drop 5) with
    | tok :: restFields =>
      match Baud.rateOfToken tok with
      | some rate =>
        match restFields with
        | [] => .ok rate
        | _ => .error .BaudParse
      | none => .error .BpsRateParse
    | [] => .error .BpsRateParse
  else .error .BaudParse

/-- Embeds `Baud::from_str`: uppercases its input, then parses. -/
def Baud.from_str (s : Str) : Except ErrorKind BpsRate :=
  Baud.from_upper (rust_to_uppercase s)

/-- Wire string of the `I2C,n` device-address command:
`format!("I2C,{}", cmd)`. -/
def DeviceAddress.get_command_string (cmd : Nat) : Str :=
  str "I2C," ++ natToDec cmd

/-- Body of `DeviceAddress::from_str` after uppercasing: requires the
`I2C,` prefix, a `u16` sub-token, and no further field. -/
def DeviceAddress.from_upper (supper : Str) : Except ErrorKind Nat :=
  if (str "I2C,").isPrefixOf supper then
    match splitChar ',' (supper.drop 4) with
    | tok :: restFields =>
      match rustParseU16 tok with
      | some value =>
        match restFields with
        | [] => .ok value
        | _ => .error .CommandParse
      | none => .error .CommandParse
    | [] => .error .CommandParse
  else .error .CommandParse

/-- Embeds `DeviceAddress::from_str`: uppercases its input, then parses. -/
def DeviceAddress.from_str (s : Str) : Except ErrorKind Nat :=
  DeviceAddress.from_upper (rust_to_uppercase s)

/-- Wire string of the `IMPORT,n` calibration import command:
`format!("IMPORT,{}", cmd)`. -/
def Import.get_command_string (cmd : Str) : Str :=
  str "IMPORT," ++ cmd

/-- Body of `Import::from_str` after uppercasing: requires the `IMPORT,`
prefix, a data sub-token of 1 to 12 bytes (`n.len() > 0 && n.len() < 13`),
and no further field. -/
def Import.from_upper (supper : Str) : Except ErrorKind Str :=
  if (str "IMPORT,").isPrefixOf supper then
    match splitChar ',' (supper.drop 7) with
    | tok :: restFields =>
      if 0 < utf8Len tok ∧ utf8Len tok < 13 then
        match restFields with
        | [] => .ok tok
        | _ => .error .CommandParse
      else .error .CommandParse
    | [] => .error .CommandParse
  else .error .CommandParse

/-- Embeds `Import::from_str`: uppercases its input, then parses. -/
def Import.from_str (s : Str) : Except ErrorKind Str :=
  Import.from_upper (rust_to_uppercase s)

/-- Parses a fixed-wire-string command, mirroring the `FromStr`
implementations that compare the uppercased input against one literal and
fail with `CommandParse`. -/
def unitFromStr (literal : Str) (s : Str) : Except ErrorKind Unit :=
  if rust_to_uppercase s = literal then .ok () else .error .CommandParse

/-- Unified model of the sixteen command types defined by `define_command!`
in `src/command.rs`; each Rust struct becomes one constructor, data-carrying
commands keep their typed argument. -/
inductive EzoCommand where
  | baud (rate : BpsRate)
  | calibrationClear
  | deviceAddress (address : Nat)
  | deviceInformation
  | exportCal
  | exportInfo
  | factory
  | find
  | importCal (data : Str)
  | ledOff
  | ledOn
  | ledState
  | protocolLockDisable
  | protocolLockEnable
  | protocolLockState
  | sleepMode
  | status

/-- Wire string of each command, from the `define_command!` invocations. -/
def EzoCommand.get_command_string : EzoCommand → Str
  | .baud rate => Baud.get_command_string rate
  | .calibrationClear => str "CAL,CLEAR"
  | .deviceAddress address => DeviceAddress.get_command_string address
  | .deviceInformation => str "I"
  | .exportCal => str "EXPORT"
  | .exportInfo => str "EXPORT,?"
  | .factory => str "FACTORY"
  | .find => str "F"
  | .importCal data => Import.get_command_string data
  | .ledOff => str "L,0"
  | .ledOn => str "L,1"
  | .ledState => str "L,?"
  | .protocolLockDisable => str "PLOCK,0"
  | .protocolLockEnable => str "PLOCK,1"
  | .protocolLockState => str "PLOCK,?"
  | .sleepMode => str "SLEEP"
  | .status => str "STATUS"

/-- Settle delay in milliseconds of each command, from the
`define_command!` invocations. -/
def EzoCommand.get_delay : EzoCommand → Nat
  | .baud _ => 0
  | .calibrationClear => 300
  | .deviceAddress _ => 300
  | .deviceInformation => 300
  | .exportCal => 300
  | .exportInfo => 300
  | .factory => 0
  | .find => 300
  | .importCal _ => 300
  | .ledOff => 300
  | .ledOn => 300
  | .ledState => 300
  | .protocolLockDisable => 300
  | .protocolLockEnable => 300
  | .protocolLockState => 300
  | .sleepMode => 0
  | .status => 300

/-- Statement that parsing a command's rendered wire string through the
matching `FromStr` implementation recovers the command value. -/
def parseRendered (c : EzoCommand) : Prop :=
  match c with
  | .baud rate => Baud.from_str (Baud.get_command_string rate) = .ok rate
  | .calibrationClear => unitFromStr (str "CAL,CLEAR") (str "CAL,CLEAR") = .ok ()
  | .deviceAddress address =>
    DeviceAddress.from_str (DeviceAddress.get_command_string address) = .ok address
  | .deviceInformation => unitFromStr (str "I") (str "I") = .ok ()
  | .exportCal => unitFromStr (str "EXPORT") (str "EXPORT") = .ok ()
  | .exportInfo => unitFromStr (str "EXPORT,?") (str "EXPORT,?") = .ok ()
  | .factory => unitFromStr (str "FACTORY") (str "FACTORY") = .ok ()
  | .find => unitFromStr (str "F") (str "F") = .ok ()
  | .importCal data => Import.from_str (Import.get_command_string data) = .ok data
  | .ledOff => unitFromStr (str "L,0") (str "L,0") = .ok ()
  | .ledOn => unitFromStr (str "L,1") (str "L,1") = .ok ()
  | .ledState => unitFromStr (str "L,?") (str "L,?") = .ok ()
  | .protocolLockDisable => unitFromStr (str "PLOCK,0") (str "PLOCK,0") = .ok ()
  | .protocolLockEnable => unitFromStr (str "PLOCK,1") (str "PLOCK,1") = .ok ()
  | .protocolLockState => unitFromStr (str "PLOCK,?") (str "PLOCK,?") = .ok ()
  | .sleepMode => unitFromStr (str "SLEEP") (str "SLEEP") = .ok ()
  | .status => unitFromStr (str "STATUS") (str "STATUS") = .ok ()

/-- Domain restriction under which the round trip can hold: the device
address fits in a `u16` (enforced by the Rust argument type), and the data
of an import is an uppercase ASCII comma-free string of 1 to 12 bytes. -/
def cmdValid : EzoCommand → Prop
  | .deviceAddress address => address ≤ 65535
  | .importCal data =>
    (∀ c ∈ data, c.toNat < 128) ∧ data = rust_to_uppercase data ∧
      ¬ ',' ∈ data ∧ 1 ≤ utf8Len data ∧ utf8Len data ≤ 12
  | _ => True

/-- Statement that a parser gives equal results on strings with equal
uppercasings, hence on all case variants of a wire string. -/
def CaseNormalizing {α : Type} (f : Str → Except ErrorKind α) : Prop :=
  ∀ s t : Str, rust_to_uppercase s = rust_to_uppercase t → f s = f t

/-- Device and transport state for the execution engine: the outcomes the
transport will give to successive write and read attempts, plus counters
and the log of sleeps (in milliseconds) performed. -/
structure DevState where
  writeOutcomes : List Bool
  readOutcomes : List (Option (List Nat))
  writes : Nat
  reads : Nat
  slept : List Nat
deriving DecidableEq

/-- One `dev.write` attempt: consumes the next write outcome (an exhausted
script fails) and counts the attempt. -/
def devWrite (d : DevState) : Bool × DevState :=
  match d.writeOutcomes with
  | b :: rest => (b, { d with writeOutcomes := rest, writes := d.writes + 1 })
  | [] => (false, { d with writes := d.writes + 1 })

/-- One `dev.read` attempt: consumes the next read outcome, delivering the
buffer contents after the read, and counts the attempt. -/
def devRead (d : DevState) : Option (List Nat) × DevState :=
  match d.readOutcomes with
  | r :: rest => (r, { d with readOutcomes := rest, reads := d.reads + 1 })
  | [] => (none, { d with reads := d.reads + 1 })

/-- Records a `thread::sleep` of the given number of milliseconds. -/
def threadSleep (ms : Nat) (d : DevState) : DevState :=
  { d with slept := d.slept ++ [ms] }

/-- Embeds `write_to_ezo` from `src/lib.rs`: builds the C string (failing
on an interior nul), attempts a write, and on failure sleeps 100 ms and
retries exactly once; a second failure is the write error. -/
def write_to_ezo (cmd_str : Str) (d : DevState) : Except ErrorKind Unit × DevState :=
  if hasNulChar cmd_str then (.error .UnwritableCommand, d)
  else
    match devWrite d with
    | (true, d1) => (.ok (), d1)
    | (false, d1) =>
      let d2 := threadSleep 100 d1
      match devWrite d2 with
      | (true, d3) => (.ok (), d3)
      | (false, d3) => (.error .UnwritableCommand, d3)

/-- Status-byte dispatch of the `Ack` variant of `command_run_fn!` in
`src/macros.rs`, as a function of the read buffer (`data_buffer[0]` of the
zero-initialised buffer is `headD 0`). -/
def ack_dispatch (data_buffer : List Nat) : Except ErrorKind ResponseStatus :=
  match response_code (data_buffer.headD 0) with
  | .Success => .ok .Ack
  | .Pending => .error .PendingResponse
  | .DeviceError => .error .DeviceErrorResponse
  | .NoDataExpected => .error .NoDataExpectedResponse
  | .UnknownError => .error .MalformedResponse

/-- Success branch of the typed variant of `command_run_fn!`: finds the
first nul in the whole buffer and decodes `data_buffer[1..=len]`, folding
decode failures into `MalformedResponse`. -/
def data_success_decode (data_buffer : List Nat) : Except ErrorKind Str :=
  match data_buffer.findIdx? (fun c => c = 0) with
  | some len =>
    match string_from_response_data ((data_buffer.drop 1).take len) with
    | .ok s => .ok s
    | .error _ => .error .MalformedResponse
  | none => .error .MalformedResponse

/-- Status-byte dispatch of the typed variant of `command_run_fn!` in
`src/macros.rs`, as a function of the read buffer. -/
def data_dispatch (data_buffer : List Nat) : Except ErrorKind Str :=
  match response_code (data_buffer.headD 0) with
  | .Success => data_success_decode data_buffer
  | .Pending => .error .PendingResponse
  | .DeviceError => .error .DeviceErrorResponse
  | .NoDataExpected => .error .NoDataExpectedResponse
  | .UnknownError => .error .MalformedResponse

/-- Shared preamble of every `run`: write (with the one retry), then sleep
for the settle delay when it is non-zero (`command_run_fn_common!`). -/
def run_common (cmd : Str) (delay : Nat) (d : DevState) : Except ErrorKind Unit × DevState :=
  match write_to_ezo cmd d with
  | (.error e, d1) => (.error e, d1)
  | (.ok _, d1) => (.ok (), if delay > 0 then threadSleep delay d1 else d1)

/-- Embeds the `NoAck` variant of `command_run_fn!`: write, delay, and
return `ResponseStatus::None` without any read. -/
def run_noack (cmd : Str) (delay : Nat) (d : DevState) :
    Except ErrorKind ResponseStatus × DevState :=
  match run_common cmd delay d with
  | (.error e, d1) => (.error e, d1)
  | (.ok _, d1) => (.ok .None, d1)

/-- Embeds the `Ack` variant of `command_run_fn!`: write, delay, read
(failing with `I2CRead`), then dispatch on the status byte. -/
def run_ack (cmd : Str) (delay : Nat) (d : DevState) :
    Except ErrorKind ResponseStatus × DevState :=
  match run_common cmd delay d with
  | (.error e, d1) => (.error e, d1)
  | (.ok _, d1) =>
    match devRead d1 with
    | (none, d2) => (.error .I2CRead, d2)
    | (some data_buffer, d2) => (ack_dispatch data_buffer, d2)

/-- Embeds the typed-response variant of `command_run_fn!` up to the decoded
payload string handed to the per-command parser. -/
def run_data (cmd : Str) (delay : Nat) (d : DevState) :
    Except ErrorKind Str × DevState :=
  match run_common cmd delay d with
  | (.error e, d1) => (.error e, d1)
  | (.ok _, d1) =>
    match devRead d1 with
    | (none, d2) => (.error .I2CRead, d2)
    | (some data_buffer, d2) => (data_dispatch data_buffer, d2)

/-- Statement that a command's `run` never touches the read side of the
device: the read script and counter are untouched, the only possible
failure is the write fault, and any successful write yields
`ResponseStatus::None`. -/
def RunReadFree (cmd : Str) (delay : Nat) : Prop :=
  ∀ d : DevState,
    (run_noack cmd delay d).2.reads = d.reads ∧
    (run_noack cmd delay d).2.readOutcomes = d.readOutcomes ∧
    ((run_noack cmd delay d).1 = .ok .None ∨
      (run_noack cmd delay d).1 = .error .UnwritableCommand) ∧
    (∀ w : List Bool,
      d.writeOutcomes = true :: w ∨ d.writeOutcomes = false :: true :: w →
      (run_noack cmd delay d).1 = .ok .None)

/-- Claim C3: `response_code` is total over all 256 byte values and maps each
byte to exactly one `ResponseCode`: 0x01 to Success, 0x02 to DeviceError,
0xFE to Pending, 0xFF to NoDataExpected, and every other byte to
UnknownError. -/
theorem c3_response_code_total_mapping :
    ∀ b : Fin 256, response_code b.val = responseCodeSpecMap b.val := by
  decide

theorem splitChar_ne_nil (sep : Char) (s : Str) : splitChar sep s ≠ [] := by
  induction s with
  | nil => simp [splitChar]
  | cons c cs ih =>
    simp only [splitChar]
    split
    · simp
    · cases h : splitChar sep cs with
      | nil => exact absurd h ih
      | cons f rest => simp [h]

theorem joinChar_splitChar (sep : Char) (s : Str) :
    joinChar sep (splitChar sep s) = s := by
  induction s with
  | nil => simp [splitChar, joinChar]
  | cons c cs ih =>
    simp only [splitChar]
    split
    · rename_i hc
      cases h : splitChar sep cs with
      | nil => exact absurd h (splitChar_ne_nil sep cs)
      | cons f rest =>
        rw [h] at ih
        simp [joinChar, ih, hc]
    · cases h : splitChar sep cs with
      | nil => exact absurd h (splitChar_ne_nil sep cs)
      | cons f rest =>
        rw [h] at ih
        cases rest with
        | nil =>
          simp only [joinChar]
          simpa [joinChar] using ih
        | cons g rest2 =>
          simp only [joinChar] at ih ⊢
          simp [ih]

theorem not_mem_of_mem_splitChar (sep : Char) (s : Str) (f : Str)
    (hf : f ∈ splitChar sep s) : ¬ sep ∈ f := by
  induction s generalizing f with
  | nil =>
    simp [splitChar] at hf
    simp [hf]
  | cons c cs ih =>
    simp only [splitChar] at hf
    split at hf
    · rcases List.mem_cons.mp hf with h | h
      · simp [h]
      · exact ih f h
    · rename_i hc
      cases h : splitChar sep cs with
      | nil => exact absurd h (splitChar_ne_nil sep cs)
      | cons g rest =>
        rw [h] at hf
        rcases List.mem_cons.mp hf with hfe | hfe
        · subst hfe
          intro hmem
          rcases List.mem_cons.mp hmem with he | he
          · exact hc he.symm
          · exact ih g (h ▸ List.mem_cons_self g rest) he
        · exact ih f (h ▸ List.mem_cons_of_mem g hfe)

theorem splitChar_eq_single (sep : Char) (s : Str) (h : ¬ sep ∈ s) :
    splitChar sep s = [s] := by
  induction s with
  | nil => simp [splitChar]
  | cons c cs ih =>
    simp only [List.mem_cons, not_or] at h
    simp only [splitChar]
    rw [if_neg (fun he => h.1 he.symm), ih h.2]

theorem splitChar_append_cons (sep : Char) (f t : Str) (h : ¬ sep ∈ f) :
    splitChar sep (f ++ sep :: t) = f :: splitChar sep t := by
  induction f with
  | nil => simp [splitChar]
  | cons c cs ih =>
    simp only [List.mem_cons, not_or] at h
    simp only [List.cons_append, splitChar]
    rw [if_neg (fun he => h.1 he.symm)]
    simp only [List.append_eq]
    rw [ih h.2]

theorem splitChar_pair (sep : Char) (s a b : Str)
    (h : splitChar sep s = [a, b]) :
    s = a ++ sep :: b ∧ ¬ sep ∈ a ∧ ¬ sep ∈ b := by
  refine ⟨?_, ?_, ?_⟩
  · have hj := joinChar_splitChar sep s
    rw [h] at hj
    simpa [joinChar] using hj.symm
  · exact not_mem_of_mem_splitChar sep s a (by simp [h])
  · exact not_mem_of_mem_splitChar sep s b (by simp [h])

theorem splitChar_single (sep : Char) (s a : Str)
    (h : splitChar sep s = [a]) : s = a ∧ ¬ sep ∈ a := by
  have hj := joinChar_splitChar sep s
  rw [h] at hj
  exact ⟨by simpa [joinChar] using hj.symm,
    not_mem_of_mem_splitChar sep s a (by simp [h])⟩

theorem isPrefixOf_append_self (p t : Str) : p.isPrefixOf (p ++ t) = true := by
  induction p with
  | nil => simp [List.isPrefixOf]
  | cons c cs ih => simp [List.isPrefixOf, ih]

theorem append_drop_of_isPrefixOf (p s : Str) (h : p.isPrefixOf s = true) :
    s = p ++ s.drop p.length := by
  induction p generalizing s with
  | nil => simp
  | cons c cs ih =>
    cases s with
    | nil => simp [List.isPrefixOf] at h
    | cons b bs =>
      simp only [List.isPrefixOf, Bool.and_eq_true, beq_iff_eq] at h
      have := ih bs h.2
      simp [h.1, List.length_cons, List.drop_succ_cons]
      conv_lhs => rw [this]


theorem digitChar_toNat (d : Nat) (h : d < 10) : (digitChar d).toNat = 48 + d := by
  interval_cases d <;> rfl

theorem natToDecAux_fuel_irrel (n : Nat) :
    ∀ f1 f2 : Nat, n < f1 → n < f2 → natToDecAux f1 n = natToDecAux f2 n := by
  induction n using Nat.strong_induction_on with
  | _ n ih =>
    intro f1 f2 h1 h2
    cases f1 with
    | zero => omega
    | succ k1 =>
      cases f2 with
      | zero => omega
      | succ k2 =>
        simp only [natToDecAux]
        split
        · rfl
        · rename_i h10
          rw [ih (n / 10) (by omega) k1 k2 (by omega) (by omega)]

theorem natToDec_eq (n : Nat) :
    natToDec n =
      if n < 10 then [digitChar n]
      else natToDec (n / 10) ++ [digitChar (n % 10)] := by
  have hunf : natToDec n =
      if n < 10 then [digitChar n]
      else natToDecAux n (n / 10) ++ [digitChar (n % 10)] := rfl
  rw [hunf]
  by_cases h : n < 10
  · rw [if_pos h, if_pos h]
  · rw [if_neg h, if_neg h,
      natToDecAux_fuel_irrel (n / 10) n (n / 10 + 1) (by omega) (by omega)]
    rfl

theorem natToDec_mem_digit (n : Nat) :
    ∀ c ∈ natToDec n, 48 ≤ c.toNat ∧ c.toNat ≤ 57 := by
  induction n using Nat.strong_induction_on with
  | _ n ih =>
    rw [natToDec_eq]
    split
    · rename_i h
      intro c hc
      simp only [List.mem_singleton] at hc
      subst hc
      rw [digitChar_toNat n h]
      omega
    · rename_i h
      intro c hc
      rcases List.mem_append.mp hc with hm | hm
      · exact ih (n / 10) (by omega) c hm
      · simp only [List.mem_singleton] at hm
        subst hm
        rw [digitChar_toNat (n % 10) (by omega)]
        omega

theorem natToDec_ne_nil (n : Nat) : natToDec n ≠ [] := by
  rw [natToDec_eq]
  split <;> simp

theorem digitsVal_append_singleton (a : Str) (c : Char) :
    digitsVal (a ++ [c]) = 10 * digitsVal a + (c.toNat - 48) := by
  simp [digitsVal, List.foldl_append]

theorem digitsVal_natToDec (n : Nat) : digitsVal (natToDec n) = n := by
  induction n using Nat.strong_induction_on with
  | _ n ih =>
    rw [natToDec_eq]
    split
    · rename_i h
      simp [digitsVal, digitChar_toNat n h]
    · rename_i h
      rw [digitsVal_append_singleton, ih (n / 10) (by omega),
        digitChar_toNat (n % 10) (by omega)]
      omega

theorem natToDec_all_digits (n : Nat) : (natToDec n).all isAsciiDigit = true := by
  rw [List.all_eq_true]
  intro c hc
  have := natToDec_mem_digit n c hc
  simp [isAsciiDigit]
  omega

theorem natToDec_not_mem_comma (n : Nat) : ¬ ',' ∈ natToDec n := by
  intro hc
  have := natToDec_mem_digit n ',' hc
  simp at this

theorem natToDec_not_mem_nul (n : Nat) (c : Char) (hc : c ∈ natToDec n) :
    c.toNat ≠ 0 := by
  have := natToDec_mem_digit n c hc
  omega

theorem stripLeadingPlus_cons (c : Char) (u : Str) (hc : c ≠ '+') :
    stripLeadingPlus (c :: u) = c :: u := by
  rw [stripLeadingPlus.eq_def]
  split
  · rename_i heq
    injection heq with h1 h2
    exact absurd h1 hc
  · rfl

theorem stripLeadingPlus_natToDec (n : Nat) :
    stripLeadingPlus (natToDec n) = natToDec n := by
  cases hnd : natToDec n with
  | nil => exact absurd hnd (natToDec_ne_nil n)
  | cons c u =>
    refine stripLeadingPlus_cons c u (fun he => ?_)
    have := natToDec_mem_digit n c (by simp [hnd])
    rw [he] at this
    simp at this

theorem rustParseU16_natToDec (n : Nat) (h : n ≤ 65535) :
    rustParseU16 (natToDec n) = some n := by
  simp only [rustParseU16, stripLeadingPlus_natToDec]
  rw [if_pos ⟨natToDec_ne_nil n, natToDec_all_digits n⟩,
    if_pos (by rw [digitsVal_natToDec]; exact h), digitsVal_natToDec]

theorem toUpper_of_digit (c : Char) (h : 48 ≤ c.toNat ∧ c.toNat ≤ 57) :
    c.toUpper = c := by
  simp only [Char.toUpper]
  rw [if_neg (by omega)]

theorem rust_to_uppercase_natToDec (n : Nat) :
    rust_to_uppercase (natToDec n) = natToDec n := by
  rw [rust_to_uppercase]
  conv_rhs => rw [show natToDec n = List.map id (natToDec n) by rw [List.map_id]]
  refine List.map_congr_left (fun c hc => ?_)
  exact toUpper_of_digit c (natToDec_mem_digit n c hc)

theorem rust_to_uppercase_append (a b : Str) :
    rust_to_uppercase (a ++ b) = rust_to_uppercase a ++ rust_to_uppercase b := by
  simp [rust_to_uppercase]


/-- Claim C5: `Exported::parse` returns the terminal `Done` marker exactly
when the input is `*DONE`; it fails with `ResponseParse` for every other
string starting with `*`; for strings not starting with `*` it returns
`ExportString` exactly when the length is between 1 and 12 inclusive, and
fails with `ResponseParse` when the length is 0 or at least 13. -/
theorem c5_exported_parse_characterization :
    ∀ s : Str,
      (Exported.parse s = .ok .Done ↔ s = str "*DONE") ∧
      ((str "*").isPrefixOf s = true → s ≠ str "*DONE" →
        Exported.parse s = .error .ResponseParse) ∧
      ((str "*").isPrefixOf s = false →
        ((Exported.parse s = .ok (.ExportString s)) ↔
          (1 ≤ utf8Len s ∧ utf8Len s ≤ 12)) ∧
        (utf8Len s = 0 ∨ 13 ≤ utf8Len s →
          Exported.parse s = .error .ResponseParse)) := by
  intro s
  have hstar : s = str "*DONE" → (str "*").isPrefixOf s = true := by
    intro h
    subst h
    decide
  simp only [Exported.parse]
  split_ifs with hp hd hlen
  · subst hd
    exact ⟨by simp, fun _ hne => absurd rfl hne, fun hfalse => by simp [hp] at hfalse⟩
  · exact ⟨by simp [hd], fun _ _ => rfl, fun hfalse => by simp [hp] at hfalse⟩
  · refine ⟨⟨fun h => by simp at h, fun h => absurd (hstar h) hp⟩,
      fun hptrue _ => absurd hptrue hp, fun _ => ?_⟩
    refine ⟨⟨fun _ => ⟨hlen.1, by omega⟩, fun _ => rfl⟩, fun hbad => ?_⟩
    exfalso
    omega
  · refine ⟨⟨fun h => by simp at h, fun h => absurd (hstar h) hp⟩,
      fun hptrue _ => absurd hptrue hp, fun _ => ?_⟩
    refine ⟨⟨fun h => by simp at h, fun hgood => absurd ⟨hgood.1, by omega⟩ hlen⟩,
      fun _ => rfl⟩

/-- Witness for C5 at concrete inputs: the sentinel parses to `Done` and a
13-byte string is rejected. -/
theorem c5_exported_parse_witness :
    Exported.parse (str "*DONE") = .ok .Done ∧
    Exported.parse (str "1234567890123") = .error .ResponseParse := by
  refine ⟨(c5_exported_parse_characterization (str "*DONE")).1.mpr rfl, ?_⟩
  exact ((c5_exported_parse_characterization (str "1234567890123")).2.2
    (by decide)).2 (by decide)

/-- Claim C10: `string_from_response_data` succeeds exactly when, after
clearing the high bit of every byte, the last byte is nul, no earlier byte
is nul, and the remaining bytes are valid UTF-8; a buffer with an embedded
nul (which a raw 0x80 byte sanitizes to) fails with `MalformedResponse`. -/
theorem c10_payload_decode_final_nul :
    ∀ response : List Nat,
      ((string_from_response_data response).isOk = true ↔
        ((turn_off_high_bits response).getLast? = some 0 ∧
          ¬ 0 ∈ (turn_off_high_bits response).dropLast ∧
          (utf8Decode ((turn_off_high_bits response).dropLast)).isSome = true)) ∧
      (0 ∈ (turn_off_high_bits response).dropLast →
        string_from_response_data response = .error .MalformedResponse) := by
  intro response
  constructor
  · unfold string_from_response_data cstrBytesWithoutNul
    by_cases h : (turn_off_high_bits response).getLast? = some 0 ∧
        ¬ 0 ∈ (turn_off_high_bits response).dropLast
    · rw [if_pos h]
      cases hu : utf8Decode (turn_off_high_bits response).dropLast with
      | none => simp [Except.isOk, Except.toBool, h, hu]
      | some cs => simp [Except.isOk, Except.toBool, h, hu]
    · rw [if_neg h]
      simp only [Except.isOk]
      constructor
      · intro hfalse
        cases hfalse
      · intro hall
        exact absurd ⟨hall.1, hall.2.1⟩ h
  · intro hmem
    unfold string_from_response_data cstrBytesWithoutNul
    rw [if_neg (fun hc => hc.2 hmem)]

/-- Witness for C10 at concrete inputs: a raw 0x80 byte before the
terminator sanitizes to an embedded nul and is rejected, while a clean
nul-terminated payload decodes. -/
theorem c10_payload_decode_witness :
    string_from_response_data [0x80, 0x41, 0] = .error .MalformedResponse ∧
    (string_from_response_data [0x41, 0]).isOk = true := by
  refine ⟨(c10_payload_decode_final_nul [0x80, 0x41, 0]).2 (by decide), ?_⟩
  exact (c10_payload_decode_final_nul [0x41, 0]).1.mpr (by decide)

/-- Claim C2, amended: the calibration import builder does not cap its
argument: for every `Import(s)` the rendered wire string is `IMPORT,`
followed by all of `s`; the 1-to-12-byte cap is enforced only when parsing
a wire string back through `Import::from_str`. -/
theorem c2_import_render_uncapped :
    (∀ s : Str, Import.get_command_string s = str "IMPORT," ++ s) ∧
    (∀ s t : Str, Import.from_str s = .ok t →
      1 ≤ utf8Len t ∧ utf8Len t ≤ 12) := by
  constructor
  · intro s
    rfl
  · intro s t h
    simp only [Import.from_str, Import.from_upper] at h
    split at h
    · split at h
      · split at h
        · rename_i hlen
          split at h
          · injection h with h2
            subst h2
            exact ⟨hlen.1, by omega⟩
          · cases h
        · cases h
      · cases h
    · cases h

/-- Counterexample to C2 as stated: the source's own test input, a
15-byte import argument, renders in full rather than capped to 12 bytes. -/
theorem c2_import_cap_counterexample :
    Import.get_command_string (str "ABCDEFGHIJKLMNO") =
      str "IMPORT," ++ str "ABCDEFGHIJKLMNO" ∧
    12 < utf8Len (str "ABCDEFGHIJKLMNO") := by
  exact ⟨rfl, by decide⟩

/-- Witness for C2 (amended) at a concrete input: a parsed import token
observes the 1-to-12-byte bounds. -/
theorem c2_import_render_witness :
    Import.get_command_string (str "AB") = str "IMPORT,AB" ∧
    (1 ≤ utf8Len (str "AB") ∧ utf8Len (str "AB") ≤ 12) := by
  refine ⟨c2_import_render_uncapped.1 (str "AB"), ?_⟩
  exact c2_import_render_uncapped.2 (str "IMPORT,AB") (str "AB") (by decide)


/-- Claim C8: `write_to_ezo` makes at most two write attempts: a first
failure is followed by a 100 ms backoff and exactly one retry whose result
decides the call; a first success retries nothing. -/
theorem c8_write_retry_at_most_twice :
    ∀ (cmd : Str) (d : DevState), hasNulChar cmd = false →
      (∀ w : List Bool, d.writeOutcomes = true :: w →
        write_to_ezo cmd d =
          (.ok (), ⟨w, d.readOutcomes, d.writes + 1, d.reads, d.slept⟩)) ∧
      (∀ w : List Bool, d.writeOutcomes = false :: true :: w →
        write_to_ezo cmd d =
          (.ok (), ⟨w, d.readOutcomes, d.writes + 2, d.reads, d.slept ++ [100]⟩)) ∧
      (∀ w : List Bool, d.writeOutcomes = false :: false :: w →
        write_to_ezo cmd d =
          (.error .UnwritableCommand,
            ⟨w, d.readOutcomes, d.writes + 2, d.reads, d.slept ++ [100]⟩)) := by
  intro cmd d hnul
  obtain ⟨wo, ro, ws, rs, sl⟩ := d
  refine ⟨?_, ?_, ?_⟩ <;> intro w hw <;>
    simp only at hw <;> subst hw <;>
    simp [write_to_ezo, hnul, devWrite, threadSleep]

/-- Witness for C8 at concrete device scripts: fail-then-succeed gives two
attempts and success; fail-fail gives two attempts and the write error. -/
theorem c8_write_retry_witness :
    write_to_ezo (str "SLEEP") ⟨[false, true], [], 0, 0, []⟩ =
      (.ok (), ⟨[], [], 2, 0, [100]⟩) ∧
    write_to_ezo (str "SLEEP") ⟨[false, false], [], 0, 0, []⟩ =
      (.error .UnwritableCommand, ⟨[], [], 2, 0, [100]⟩) := by
  refine ⟨(c8_write_retry_at_most_twice (str "SLEEP")
    ⟨[false, true], [], 0, 0, []⟩ (by decide)).2.1 [] rfl, ?_⟩
  exact (c8_write_retry_at_most_twice (str "SLEEP")
    ⟨[false, false], [], 0, 0, []⟩ (by decide)).2.2 [] rfl

theorem hasNulChar_natToDec (n : Nat) : hasNulChar (natToDec n) = false := by
  rw [hasNulChar, List.any_eq_false]
  intro c hc
  simpa using natToDec_not_mem_nul n c hc

theorem hasNulChar_append (a b : Str) :
    hasNulChar (a ++ b) = (hasNulChar a || hasNulChar b) := by
  simp [hasNulChar, List.any_append]

theorem run_noack_read_free (cmd : Str) (delay : Nat)
    (hnul : hasNulChar cmd = false) : RunReadFree cmd delay := by
  intro d
  obtain ⟨wo, ro, ws, rs, sl⟩ := d
  match wo with
  | true :: w =>
    refine ⟨?_, ?_, ?_, ?_⟩ <;>
      simp [run_noack, run_common, write_to_ezo, hnul, devWrite, threadSleep] <;>
      split <;> simp
  | false :: true :: w =>
    refine ⟨?_, ?_, ?_, ?_⟩ <;>
      simp [run_noack, run_common, write_to_ezo, hnul, devWrite, threadSleep] <;>
      split <;> simp
  | false :: false :: w =>
    refine ⟨?_, ?_, ?_, ?_⟩ <;>
      simp [run_noack, run_common, write_to_ezo, hnul, devWrite, threadSleep]
  | [false] =>
    refine ⟨?_, ?_, ?_, ?_⟩ <;>
      simp [run_noack, run_common, write_to_ezo, hnul, devWrite, threadSleep]
  | [] =>
    refine ⟨?_, ?_, ?_, ?_⟩ <;>
      simp [run_noack, run_common, write_to_ezo, hnul, devWrite, threadSleep]

/-- Claim C9: the five commands declaring no expected response (`Baud`,
`DeviceAddress`, `Factory`, `Sleep`, `Find`) never read the device: the
read script and counter are untouched, any successful write (first or
retried) yields `Ok(ResponseStatus::None)`, and the only possible failure
is the write fault, never `PendingResponse`, `DeviceErrorResponse`,
`NoDataExpectedResponse`, `MalformedResponse` or `I2CRead`. -/
theorem c9_noack_commands_never_read :
    (∀ rate : BpsRate,
      RunReadFree (EzoCommand.get_command_string (.baud rate))
        (EzoCommand.get_delay (.baud rate))) ∧
    (∀ address : Nat,
      RunReadFree (EzoCommand.get_command_string (.deviceAddress address))
        (EzoCommand.get_delay (.deviceAddress address))) ∧
    RunReadFree (EzoCommand.get_command_string .factory)
      (EzoCommand.get_delay .factory) ∧
    RunReadFree (EzoCommand.get_command_string .sleepMode)
      (EzoCommand.get_delay .sleepMode) ∧
    RunReadFree (EzoCommand.get_command_string .find)
      (EzoCommand.get_delay .find) := by
  refine ⟨?_, ?_, ?_, ?_, ?_⟩
  · intro rate
    refine run_noack_read_free _ _ ?_
    cases rate <;> decide
  · intro address
    refine run_noack_read_free _ _ ?_
    show hasNulChar (str "I2C," ++ natToDec address) = false
    rw [hasNulChar_append, hasNulChar_natToDec]
    decide
  · exact run_noack_read_free _ _ (by decide)
  · exact run_noack_read_free _ _ (by decide)
  · exact run_noack_read_free _ _ (by decide)

/-- Witness for C9 at a concrete device state: running `SLEEP` against a
device whose read script would answer returns `None` without consuming it. -/
theorem c9_noack_commands_witness :
    (run_noack (EzoCommand.get_command_string .sleepMode)
      (EzoCommand.get_delay .sleepMode)
      ⟨[true], [some [254]], 0, 0, []⟩).1 = .ok .None := by
  exact (c9_noack_commands_never_read.2.2.2.1
    ⟨[true], [some [254]], 0, 0, []⟩).2.2.2 [] (Or.inl rfl)


/-- Claim C4: once a reply buffer is read, the outcome is decided by its
first status byte: 0xFE fails with `PendingResponse`, 0x02 with
`DeviceErrorResponse`, 0xFF with `NoDataExpectedResponse`, any byte other
than the four named codes with `MalformedResponse`, and only 0x01 proceeds
to the ack result or to payload decoding; the run functions hand the read
buffer to exactly this dispatch. -/
theorem c4_status_byte_dispatch :
    (∀ data_buffer : List Nat,
      (data_buffer.headD 0 = 0xFE →
        ack_dispatch data_buffer = .error .PendingResponse ∧
        data_dispatch data_buffer = .error .PendingResponse) ∧
      (data_buffer.headD 0 = 0x02 →
        ack_dispatch data_buffer = .error .DeviceErrorResponse ∧
        data_dispatch data_buffer = .error .DeviceErrorResponse) ∧
      (data_buffer.headD 0 = 0xFF →
        ack_dispatch data_buffer = .error .NoDataExpectedResponse ∧
        data_dispatch data_buffer = .error .NoDataExpectedResponse) ∧
      (¬ data_buffer.headD 0 ∈ ([0x01, 0x02, 0xFE, 0xFF] : List Nat) →
        ack_dispatch data_buffer = .error .MalformedResponse ∧
        data_dispatch data_buffer = .error .MalformedResponse) ∧
      (data_buffer.headD 0 = 0x01 →
        ack_dispatch data_buffer = .ok .Ack ∧
        data_dispatch data_buffer = data_success_decode data_buffer)) ∧
    (∀ (cmd : Str) (delay : Nat) (d : DevState) (buf : List Nat)
        (w : List Bool) (r : List (Option (List Nat))),
      hasNulChar cmd = false → d.writeOutcomes = true :: w →
      d.readOutcomes = some buf :: r →
      (run_ack cmd delay d).1 = ack_dispatch buf ∧
      (run_data cmd delay d).1 = data_dispatch buf) := by
  constructor
  · intro data_buffer
    refine ⟨?_, ?_, ?_, ?_, ?_⟩ <;> intro h
    · have hrc : response_code (data_buffer.headD 0) = .Pending := by
        rw [h]
        decide
      simp only [ack_dispatch, data_dispatch, hrc]
      exact ⟨by trivial, by trivial⟩
    · have hrc : response_code (data_buffer.headD 0) = .DeviceError := by
        rw [h]
        decide
      simp only [ack_dispatch, data_dispatch, hrc]
      exact ⟨by trivial, by trivial⟩
    · have hrc : response_code (data_buffer.headD 0) = .NoDataExpected := by
        rw [h]
        decide
      simp only [ack_dispatch, data_dispatch, hrc]
      exact ⟨by trivial, by trivial⟩
    · simp only [List.mem_cons, List.not_mem_nil, or_false, not_or] at h
      obtain ⟨h1, h2, h3, h4⟩ := h
      have hrc : response_code (data_buffer.headD 0) = .UnknownError := by
        simp only [response_code, ResponseCode.toByte]
        rw [if_neg h4, if_neg h3, if_neg h2, if_neg h1]
      simp only [ack_dispatch, data_dispatch, hrc]
      exact ⟨by trivial, by trivial⟩
    · have hrc : response_code (data_buffer.headD 0) = .Success := by
        rw [h]
        decide
      simp only [ack_dispatch, data_dispatch, hrc]
      exact ⟨by trivial, by trivial⟩
  · intro cmd delay d buf w r hnul hw hr
    obtain ⟨wo, ro, ws, rs, sl⟩ := d
    simp only at hw hr
    subst hw
    subst hr
    constructor <;>
      · simp only [run_ack, run_data, run_common, write_to_ezo, hnul,
          Bool.false_eq_true, if_false, devWrite, threadSleep]
        by_cases hd : delay > 0 <;> simp [hd, devRead]

/-- Witness for C4 at concrete buffers: a pending status fails with
`PendingResponse` and a success status acknowledges. -/
theorem c4_status_byte_dispatch_witness :
    ack_dispatch [0xFE, 0] = .error .PendingResponse ∧
    ack_dispatch [0x01, 0] = .ok .Ack := by
  exact ⟨((c4_status_byte_dispatch.1 [0xFE, 0]).1 rfl).1,
    ((c4_status_byte_dispatch.1 [0x01, 0]).2.2.2.2 rfl).1⟩


theorem rateOfToken_eq_some (tok : Str) (r : BpsRate)
    (h : Baud.rateOfToken tok = some r) : tok = natToDec (BpsRate.parse r) := by
  simp only [Baud.rateOfToken] at h
  split_ifs at h with h1 h2 h3 h4 h5 h6 h7 h8
  · injection h with hh; subst hh; rw [h1]; decide
  · injection h with hh; subst hh; rw [h2]; decide
  · injection h with hh; subst hh; rw [h3]; decide
  · injection h with hh; subst hh; rw [h4]; decide
  · injection h with hh; subst hh; rw [h5]; decide
  · injection h with hh; subst hh; rw [h6]; decide
  · injection h with hh; subst hh; rw [h7]; decide
  · injection h with hh; subst hh; rw [h8]; decide

theorem Baud.from_upper_cases (rest tok : Str) (fields : List Str)
    (hsp : splitChar ',' rest = tok :: fields) :
    Baud.from_upper (str "BAUD," ++ rest) =
      (match Baud.rateOfToken tok with
       | some rate =>
         match fields with
         | [] => Except.ok rate
         | _ => Except.error ErrorKind.BaudParse
       | none => Except.error ErrorKind.BpsRateParse) := by
  have hdrop : (str "BAUD," ++ rest).drop 5 = rest := by
    have h5 : (str "BAUD,").length = 5 := rfl
    rw [← h5, List.drop_left]
  simp only [Baud.from_upper, isPrefixOf_append_self, if_true, hdrop, hsp]
  cases Baud.rateOfToken tok with
  | none => rfl
  | some rate => cases fields <;> rfl

/-- Claim C7: `Baud::from_str` accepts exactly the eight baud rates: for a
wire string whose uppercasing is `BAUD,` followed by `rest`, parsing
succeeds exactly when `rest` is the decimal rendering of one of the eight
rates (hence a single field), a non-rate first token fails with the
specific kind `BpsRateParse`, and `BpsRate::from_num` likewise rejects
every `u32` outside the eight values with `BpsRateParse`. -/
theorem c7_baud_rate_closed_enumeration :
    (∀ s rest : Str, rust_to_uppercase s = str "BAUD," ++ rest →
      (∀ r : BpsRate, Baud.from_str s = .ok r ↔ rest = natToDec (BpsRate.parse r)) ∧
      (∀ (tok : Str) (fields : List Str), splitChar ',' rest = tok :: fields →
        Baud.rateOfToken tok = none →
        Baud.from_str s = .error .BpsRateParse)) ∧
    (∀ r : BpsRate, BpsRate.from_num (BpsRate.parse r) = .ok r) ∧
    (∀ n : Nat, n < 4294967296 →
      ¬ n ∈ ([300, 1200, 2400, 9600, 19200, 38400, 57600, 115200] : List Nat) →
      BpsRate.from_num n = .error .BpsRateParse) := by
  refine ⟨?_, ?_, ?_⟩
  · intro s rest h
    have hfs : Baud.from_str s = Baud.from_upper (str "BAUD," ++ rest) := by
      rw [Baud.from_str, h]
    have hpre : (str "BAUD,").isPrefixOf (str "BAUD," ++ rest) = true :=
      isPrefixOf_append_self _ _
    have hdrop : (str "BAUD," ++ rest).drop 5 = rest := by
      have h5 : (str "BAUD,").length = 5 := rfl
      rw [← h5, List.drop_left]
    constructor
    · intro r
      constructor
      · intro hok
        rw [hfs] at hok
        cases hsp : splitChar ',' rest with
        | nil => exact absurd hsp (splitChar_ne_nil ',' rest)
        | cons tok fields =>
          rw [Baud.from_upper_cases rest tok fields hsp] at hok
          cases hro : Baud.rateOfToken tok with
          | none => rw [hro] at hok; cases hok
          | some rate =>
            rw [hro] at hok
            cases fields with
            | cons g gs => cases hok
            | nil =>
              have hr : rate = r := by simpa using hok
              subst hr
              have htok := rateOfToken_eq_some tok rate hro
              have hsingle := splitChar_single ',' rest tok hsp
              rw [hsingle.1, htok]
      · intro hrest
        subst hrest
        rw [hfs]
        cases r <;> decide
    · intro tok fields hsp hnone
      rw [hfs, Baud.from_upper_cases rest tok fields hsp, hnone]
  · intro r
    cases r <;> decide
  · intro n hlt hmem
    simp only [List.mem_cons, List.not_mem_nil, or_false, not_or] at hmem
    obtain ⟨m1, m2, m3, m4, m5, m6, m7, m8⟩ := hmem
    simp only [BpsRate.from_num, BpsRate.parse]
    rw [if_neg m1, if_neg m2, if_neg m3, if_neg m4, if_neg m5, if_neg m6,
      if_neg m7, if_neg m8]

/-- Witness for C7 at concrete inputs: a lowercase wire string parses to
its rate, and 9601 is rejected as a baud rate value. -/
theorem c7_baud_rate_witness :
    Baud.from_str (str "baud,9600") = .ok .Bps9600 ∧
    BpsRate.from_num 9601 = .error .BpsRateParse := by
  refine ⟨?_, ?_⟩
  · exact ((c7_baud_rate_closed_enumeration.1 (str "baud,9600") (str "9600")
      (by decide)).1 .Bps9600).mpr (by decide)
  · exact c7_baud_rate_closed_enumeration.2.2 9601 (by norm_num) (by decide)


theorem reasonOfField_eq_some (f : Str) (r : RestartReason)
    (h : reasonOfField f = some r) : f = [r.letter] := by
  simp only [reasonOfField] at h
  split_ifs at h with h1 h2 h3 h4 h5
  · injection h with hh; subst hh; rw [h1]; decide
  · injection h with hh; subst hh; rw [h2]; decide
  · injection h with hh; subst hh; rw [h3]; decide
  · injection h with hh; subst hh; rw [h4]; decide
  · injection h with hh; subst hh; rw [h5]; decide

theorem DeviceStatus.parse_append (rest : Str) :
    DeviceStatus.parse (str "?STATUS," ++ rest) =
      DeviceStatus.parseFields (splitChar ',' rest) := by
  have hdrop : (str "?STATUS," ++ rest).drop 8 = rest := by
    have h8 : (str "?STATUS,").length = 8 := rfl
    rw [← h8, List.drop_left]
  simp only [DeviceStatus.parse, isPrefixOf_append_self, if_true, hdrop]

/-- Claim C6: `DeviceStatus::parse` succeeds exactly on case-sensitive
strings of the form `?STATUS,<reason>,<voltage>` with exactly two fields
after the tag, the reason one of the letters P, S, B, W, U (mapped to the
five restart reasons) and the voltage accepted by `f64::from_str`; every
failure is `ResponseParse`; in particular `?STATUS,P,1.5` parses to
`PoweredOff` with voltage 1.5 and `?STATUS,X,1.5` fails. -/
theorem c6_device_status_parse :
    (∀ (r : RestartReason) (v : Str) (fv : F64), ¬ ',' ∈ v →
      rustParseF64 v = some fv →
      DeviceStatus.parse (str "?STATUS," ++ [r.letter] ++ ',' :: v) =
        .ok ⟨r, fv⟩) ∧
    (∀ s : Str, (DeviceStatus.parse s).isOk = true →
      ∃ (r : RestartReason) (v : Str) (fv : F64),
        s = str "?STATUS," ++ [r.letter] ++ ',' :: v ∧ ¬ ',' ∈ v ∧
        rustParseF64 v = some fv ∧ DeviceStatus.parse s = .ok ⟨r, fv⟩) ∧
    (∀ (s : Str) (e : ErrorKind), DeviceStatus.parse s = .error e →
      e = .ResponseParse) ∧
    DeviceStatus.parse (str "?STATUS,P,1.5") =
      .ok ⟨.PoweredOff, .finite (3 / 2)⟩ ∧
    DeviceStatus.parse (str "?STATUS,X,1.5") = .error .ResponseParse := by
  have hpart1 : ∀ (r : RestartReason) (v : Str) (fv : F64), ¬ ',' ∈ v →
      rustParseF64 v = some fv →
      DeviceStatus.parse (str "?STATUS," ++ [r.letter] ++ ',' :: v) =
        .ok ⟨r, fv⟩ := by
    intro r v fv hv hf
    have hro : reasonOfField [r.letter] = some r := by
      cases r <;> decide
    have hrl : ¬ ',' ∈ [r.letter] := by
      cases r <;> decide
    have hsp : splitChar ',' ([r.letter] ++ ',' :: v) = [[r.letter], v] := by
      rw [splitChar_append_cons ',' [r.letter] v hrl, splitChar_eq_single ',' v hv]
    rw [List.append_assoc, DeviceStatus.parse_append ([r.letter] ++ ',' :: v), hsp]
    simp only [DeviceStatus.parseFields, hro, hf]
  refine ⟨hpart1, ?_, ?_, ?_, ?_⟩
  · intro s hok
    by_cases hpre : (str "?STATUS,").isPrefixOf s = true
    · have h8 : (str "?STATUS,").length = 8 := rfl
      have hs := append_drop_of_isPrefixOf _ s hpre
      rw [h8] at hs
      cases hsp : splitChar ',' (s.drop 8) with
      | nil => exact absurd hsp (splitChar_ne_nil ',' (s.drop 8))
      | cons f1 fs =>
        have hps : DeviceStatus.parse s = DeviceStatus.parseFields (f1 :: fs) := by
          conv_lhs => rw [hs]
          rw [DeviceStatus.parse_append (s.drop 8), hsp]
        cases hro : reasonOfField f1 with
        | none =>
          rw [hps] at hok
          simp [DeviceStatus.parseFields, hro, Except.isOk, Except.toBool] at hok
        | some r =>
          cases fs with
          | nil =>
            rw [hps] at hok
            simp [DeviceStatus.parseFields, hro, Except.isOk, Except.toBool] at hok
          | cons v fs2 =>
            cases hpf : rustParseF64 v with
            | none =>
              rw [hps] at hok
              simp [DeviceStatus.parseFields, hro, hpf,
                Except.isOk, Except.toBool] at hok
            | some fv =>
              cases fs2 with
              | cons g gs =>
                rw [hps] at hok
                simp [DeviceStatus.parseFields, hro, hpf,
                  Except.isOk, Except.toBool] at hok
              | nil =>
                have hpair := splitChar_pair ',' (s.drop 8) f1 v hsp
                have hf1 := reasonOfField_eq_some f1 r hro
                refine ⟨r, v, fv, ?_, hpair.2.2, hpf, ?_⟩
                · rw [hs, hpair.1, hf1, ← List.append_assoc]
                · rw [hps]
                  simp only [DeviceStatus.parseFields, hro, hpf]
    · simp only [Bool.not_eq_true] at hpre
      have herr : DeviceStatus.parse s = .error .ResponseParse := by
        simp only [DeviceStatus.parse]
        rw [if_neg (by simp [hpre])]
      rw [herr] at hok
      simp [Except.isOk, Except.toBool] at hok
  · intro s e he
    by_cases hpre : (str "?STATUS,").isPrefixOf s = true
    · have h8 : (str "?STATUS,").length = 8 := rfl
      have hs := append_drop_of_isPrefixOf _ s hpre
      rw [h8] at hs
      cases hsp : splitChar ',' (s.drop 8) with
      | nil => exact absurd hsp (splitChar_ne_nil ',' (s.drop 8))
      | cons f1 fs =>
        rw [hs, DeviceStatus.parse_append (s.drop 8), hsp] at he
        simp only [DeviceStatus.parseFields] at he
        split at he
        · split at he
          · split at he
            · split at he
              · cases he
              · injection he with h1; exact h1.symm
            · injection he with h1; exact h1.symm
          · injection he with h1; exact h1.symm
        · injection he with h1; exact h1.symm
    · simp only [Bool.not_eq_true] at hpre
      have herr : DeviceStatus.parse s = .error .ResponseParse := by
        simp only [DeviceStatus.parse]
        rw [if_neg (by simp [hpre])]
      rw [herr] at he
      injection he with h1
      exact h1.symm
  · have h0 : rustParseF64 (str "1.5") =
        some (.finite ((digitsVal ['1'] : ℚ) +
          (digitsVal ['5'] : ℚ) / 10 ^ ((['5'] : Str)).length)) := rfl
    have hval : ((digitsVal ['1'] : ℚ) +
        (digitsVal ['5'] : ℚ) / 10 ^ ((['5'] : Str)).length) = 3 / 2 := by
      have hv1 : digitsVal ['1'] = 1 := by decide
      have hv5 : digitsVal ['5'] = 5 := by decide
      rw [hv1, hv5]
      norm_num
    have hf : rustParseF64 (str "1.5") = some (.finite (3 / 2)) := by
      rw [h0, hval]
    have hseq : str "?STATUS,P,1.5" =
        str "?STATUS," ++ [RestartReason.PoweredOff.letter] ++ ',' :: str "1.5" := by
      decide
    rw [hseq]
    exact hpart1 .PoweredOff (str "1.5") (.finite (3 / 2)) (by decide) hf
  · decide

/-- Witness for C6 at a concrete malformed input: a two-letter reason field
is rejected with `ResponseParse`. -/
theorem c6_device_status_witness :
    DeviceStatus.parse (str "?STATUS,PP,1.5") = .error .ResponseParse ∧
    (DeviceStatus.parse (str "?STATUS,U,2")).isOk = true := by
  constructor
  · cases he : DeviceStatus.parse (str "?STATUS,PP,1.5") with
    | ok v =>
      exfalso
      have := c6_device_status_parse.2.1 (str "?STATUS,PP,1.5")
        (by rw [he]; rfl)
      obtain ⟨r, v2, fv, hform, hv2, hpf, hok⟩ := this
      cases r <;> simp [RestartReason.letter, str] at hform
    | error e =>
      rw [c6_device_status_parse.2.2.1 (str "?STATUS,PP,1.5") e he]
  · have h2 : rustParseF64 (str "2") = some (.finite ((digitsVal ['2'] : ℚ))) := rfl
    have hseq : str "?STATUS,U,2" =
        str "?STATUS," ++ [RestartReason.Unknown.letter] ++ ',' :: str "2" := by
      decide
    rw [hseq, c6_device_status_parse.1 .Unknown (str "2")
      (.finite ((digitsVal ['2'] : ℚ))) (by decide) h2]
    rfl


/-- Claim C1, amended: parsing the rendered wire string recovers the
command for every defined command, provided the `Import` argument is an
uppercase ASCII comma-free string of 1 to 12 bytes (the builder renders it
verbatim while `from_str` uppercases and caps, so other arguments cannot
round-trip) and the device address fits in a `u16`; and every `FromStr`
implementation is case-normalizing: strings with equal uppercasings parse
to equal results, so any case variant of a wire string parses like its
uppercase canonical form. -/
theorem c1_parse_render_roundtrip :
    (∀ c : EzoCommand, cmdValid c → parseRendered c) ∧
    CaseNormalizing Baud.from_str ∧
    CaseNormalizing DeviceAddress.from_str ∧
    CaseNormalizing Import.from_str ∧
    (∀ lit : Str, CaseNormalizing (unitFromStr lit)) := by
  refine ⟨?_, ?_, ?_, ?_, ?_⟩
  · intro c hval
    cases c with
    | baud rate =>
      show Baud.from_str (Baud.get_command_string rate) = .ok rate
      cases rate <;> decide
    | deviceAddress address =>
      show DeviceAddress.from_str (DeviceAddress.get_command_string address) =
        .ok address
      have haddr : address ≤ 65535 := hval
      have hup : rust_to_uppercase (str "I2C," ++ natToDec address) =
          str "I2C," ++ natToDec address := by
        rw [rust_to_uppercase_append, rust_to_uppercase_natToDec,
          show rust_to_uppercase (str "I2C,") = str "I2C," from by decide]
      have hdrop : (str "I2C," ++ natToDec address).drop 4 = natToDec address := by
        have h4 : (str "I2C,").length = 4 := rfl
        rw [← h4, List.drop_left]
      rw [DeviceAddress.from_str, DeviceAddress.get_command_string, hup]
      simp only [DeviceAddress.from_upper, isPrefixOf_append_self, if_true, hdrop,
        splitChar_eq_single ',' (natToDec address) (natToDec_not_mem_comma address),
        rustParseU16_natToDec address haddr]
    | importCal data =>
      obtain ⟨hascii, hupper, hcomma, hlen1, hlen2⟩ := hval
      show Import.from_str (Import.get_command_string data) = .ok data
      have hup : rust_to_uppercase (str "IMPORT," ++ data) =
          str "IMPORT," ++ data := by
        rw [rust_to_uppercase_append, ← hupper,
          show rust_to_uppercase (str "IMPORT,") = str "IMPORT," from by decide]
      have hdrop : (str "IMPORT," ++ data).drop 7 = data := by
        have h7 : (str "IMPORT,").length = 7 := rfl
        rw [← h7, List.drop_left]
      rw [Import.from_str, Import.get_command_string, hup]
      simp only [Import.from_upper, isPrefixOf_append_self, if_true, hdrop,
        splitChar_eq_single ',' data hcomma]
      rw [if_pos ⟨by omega, by omega⟩]
    | calibrationClear =>
      show unitFromStr (str "CAL,CLEAR") (str "CAL,CLEAR") = .ok ()
      decide
    | deviceInformation =>
      show unitFromStr (str "I") (str "I") = .ok ()
      decide
    | exportCal =>
      show unitFromStr (str "EXPORT") (str "EXPORT") = .ok ()
      decide
    | exportInfo =>
      show unitFromStr (str "EXPORT,?") (str "EXPORT,?") = .ok ()
      decide
    | factory =>
      show unitFromStr (str "FACTORY") (str "FACTORY") = .ok ()
      decide
    | find =>
      show unitFromStr (str "F") (str "F") = .ok ()
      decide
    | ledOff =>
      show unitFromStr (str "L,0") (str "L,0") = .ok ()
      decide
    | ledOn =>
      show unitFromStr (str "L,1") (str "L,1") = .ok ()
      decide
    | ledState =>
      show unitFromStr (str "L,?") (str "L,?") = .ok ()
      decide
    | protocolLockDisable =>
      show unitFromStr (str "PLOCK,0") (str "PLOCK,0") = .ok ()
      decide
    | protocolLockEnable =>
      show unitFromStr (str "PLOCK,1") (str "PLOCK,1") = .ok ()
      decide
    | protocolLockState =>
      show unitFromStr (str "PLOCK,?") (str "PLOCK,?") = .ok ()
      decide
    | sleepMode =>
      show unitFromStr (str "SLEEP") (str "SLEEP") = .ok ()
      decide
    | status =>
      show unitFromStr (str "STATUS") (str "STATUS") = .ok ()
      decide
  · intro s t h
    simp only [Baud.from_str, h]
  · intro s t h
    simp only [DeviceAddress.from_str, h]
  · intro s t h
    simp only [Import.from_str, h]
  · intro lit s t h
    simp only [unitFromStr, h]

/-- Counterexample to C1 as stated: the `Import` round trip fails on a
lowercase argument, because `from_str` uppercases the wire string before
extracting the data argument, so `Import("a")` parses back as
`Import("A")`. -/
theorem c1_roundtrip_counterexample :
    Import.from_str (Import.get_command_string (str "a")) ≠ .ok (str "a") := by
  decide

/-- Witness for C1 (amended) at concrete commands: a baud command, a
device-address command and a valid import argument all round-trip. -/
theorem c1_parse_render_witness :
    Baud.from_str (Baud.get_command_string .Bps300) = .ok .Bps300 ∧
    DeviceAddress.from_str (DeviceAddress.get_command_string 88) = .ok 88 ∧
    Import.from_str (Import.get_command_string (str "ABC")) = .ok (str "ABC") := by
  refine ⟨?_, ?_, ?_⟩
  · exact c1_parse_render_roundtrip.1 (.baud .Bps300) trivial
  · exact c1_parse_render_roundtrip.1 (.deviceAddress 88)
      (show 88 ≤ 65535 by decide)
  · exact c1_parse_render_roundtrip.1 (.importCal (str "ABC"))
      (show (∀ c ∈ str "ABC", c.toNat < 128) ∧
        str "ABC" = rust_to_uppercase (str "ABC") ∧ ¬ ',' ∈ str "ABC" ∧
        1 ≤ utf8Len (str "ABC") ∧ utf8Len (str "ABC") ≤ 12 by decide)

end Ezo
